import Mathlib

/-!
# cluster-man — verification of the supervision core

Shallow embedding of the `cluster-man` node module (Runnable/cluster-man).
The repository ships two near-duplicate versions of `index.js`:

* `src/index.js` — the lineage with the worker-handle registry
  (`this.workers`, appended in `createWorker`, spliced in `exit`);
* `src/unnamed/part_000` — the lineage with `killOnError`, `beforeExit`,
  `_exitMaster` and the pool-exhaustion escalation in `exit`.

The repository's tests (`src/test/methods.js`, `src/unnamed/part_003`,
`src/unnamed/part_004`) exercise the union of the two: a registry that is
spliced on exit *and* an exactly-once `_exitMaster` escalation when the
registry reaches zero.  The embedding below models that union; each
definition's doc comment names the source lines it is translated from.

Side effects (logging, `process.exit`, callback invocations) are modelled
as an explicit trace of `Action`s, and the mutable manager state as an
explicit `MasterState` record.
-/

namespace ClusterMan

/-- A worker handle as the tests construct it: `cluster.fork()` returns an
object whose `id` is a fresh sequential integer. -/
structure Worker where
  id : Nat
deriving DecidableEq, Repr

/-- A JavaScript `Error` value, carrying its diagnostic message
(`err.message` / `err.stack` are collapsed to one string). -/
structure Fault where
  message : String
deriving DecidableEq, Repr

/-- The value passed as the single argument of the operator's master
routine.  `masterDomain` is the domain object created in `_startMaster`
(Node's `domain.run(fn)` invokes `fn` with the domain as `this`);
`supervisor` is the `ClusterManager` instance itself. -/
inductive MasterArg where
  | supervisor
  | masterDomain
deriving DecidableEq, Repr

/-- Observable effects of the manager, in program order. -/
inductive Action where
  | logInfo (msg : String)
  | logWarning (msg : String)
  | logError (msg : String)
  /-- `_exitMaster` was invoked with this (optional) fault. -/
  | exitMasterInvoked (fault : Option Fault)
  /-- the configured `beforeExit` hook was invoked with this fault
  (and the completion callback). -/
  | hookInvoked (fault : Option Fault)
  /-- `process.exit(code)` ran. -/
  | processExit (code : Nat)
  /-- the operator's master routine was invoked with this argument while
  the registry held `registrySize` handles. -/
  | masterInvoked (arg : MasterArg) (registrySize : Nat)
  /-- the operator's worker routine was invoked. -/
  | workerRoutineInvoked
deriving DecidableEq, Repr

/-- Does the action mark a `_exitMaster` invocation? -/
def Action.isExitMasterCall : Action → Bool
  | .exitMasterInvoked _ => true
  | _ => false

/-- Does the action mark a `beforeExit`-hook invocation? -/
def Action.isHookCall : Action → Bool
  | .hookInvoked _ => true
  | _ => false

/-- Does the action mark a `process.exit`? -/
def Action.isProcessExit : Action → Bool
  | .processExit _ => true
  | _ => false

/-- Does the action mark a master-routine invocation? -/
def Action.isMasterCall : Action → Bool
  | .masterInvoked _ _ => true
  | _ => false

/-- Control-flow actions that only the manager itself may emit. -/
def Action.isControl : Action → Bool
  | .exitMasterInvoked _ => true
  | .hookInvoked _ => true
  | .processExit _ => true
  | _ => false

/-- A modelled `beforeExit` hook `(err, done) -> void`: the actions it
performs when invoked, and whether it ever invokes its completion
callback `done`. -/
structure Hook where
  work : List Action
  callsDone : Bool
deriving DecidableEq, Repr

/-- A hook is well behaved when its own work does not fake manager
control actions (it does not itself call `_exitMaster`, the hook, or
`process.exit`). -/
def WellBehavedHook (h : Hook) : Prop :=
  h.work.all (fun a => !a.isControl) = true

instance (h : Hook) : Decidable (WellBehavedHook h) := by
  unfold WellBehavedHook; infer_instance

/-- The default `beforeExit` from the constructor's `defaults` call,
`src/unnamed/part_000` lines 87–89: `function (err, done) { done(); }` —
no work of its own, immediately signals completion. -/
def defaultBeforeExit : Hook := ⟨[], true⟩

/-- `noop` from `101/noop` (`function () {}`): does nothing and never
invokes the completion callback. -/
def noopHook : Hook := ⟨[], false⟩

/-- The configuration fields of `this.options` that the supervision core
reads after construction (`src/unnamed/part_000` lines 82–90). -/
structure Config where
  killOnError : Bool
  beforeExit : Hook
deriving DecidableEq, Repr

/-- `ClusterManager.prototype._exitMaster` (`src/unnamed/part_000`
lines 187–191):

```js
this.options.beforeExit(err, function () {
  process.exit(err ? 1 : 0);
});
```

The hook is invoked once with the fault and the completion callback; the
hook performs its own work; if (and only if) it invokes `done`, the
process exits with `1` when a fault was supplied and `0` otherwise. -/
def exitMaster (cfg : Config) (err : Option Fault) : List Action :=
  Action.exitMasterInvoked err :: Action.hookInvoked err ::
    (cfg.beforeExit.work ++
      (if cfg.beforeExit.callsDone then
        [Action.processExit (if err.isSome then 1 else 0)]
      else []))

/-- `ClusterManager.prototype.masterError` (`src/unnamed/part_000`
lines 288–294):

```js
this.log.error('Unhandled master error: ' + err.stack);
if (this.options.killOnError) {
  this.log.error('Cluster fatal: unhandled error in master process, exiting.');
  this._exitMaster(err);
}
```
-/
def masterError (cfg : Config) (err : Fault) : List Action :=
  Action.logError ("Unhandled master error: " ++ err.message) ::
    (if cfg.killOnError then
      Action.logError "Cluster fatal: unhandled error in master process, exiting." ::
        exitMaster cfg (some err)
    else [])

/-- The `beforeExit` option as supplied at construction. -/
inductive BeforeExitOpt where
  /-- not supplied at all -/
  | absent
  /-- supplied as a callable with the given behaviour -/
  | fn (h : Hook)
  /-- supplied but not a function (e.g. a string) -/
  | nonFunction
deriving DecidableEq, Repr

/-- Constructor resolution of `beforeExit` (`src/unnamed/part_000`
lines 82–103): `defaults` fills in the immediately-completing default
when the option is absent; afterwards a supplied non-callable value is
discarded with a warning and replaced by `noop`:

```js
if (!isFunction(this.options.beforeExit)) {
  this.log.warning('Before exit callback is not a function, removing.');
  this.options.beforeExit = noop;
}
```

Returns the resolved hook and the warning log entries emitted. -/
def resolveBeforeExit : BeforeExitOpt → Hook × List Action
  | .absent => (defaultBeforeExit, [])
  | .fn h => (h, [])
  | .nonFunction =>
      (noopHook, [Action.logWarning "Before exit callback is not a function, removing."])

/-- JavaScript `array.splice(i, 1)`: remove the element at index `i`
(no-op when `i` is out of range). -/
def spliceAt (l : List Worker) (i : Nat) : List Worker :=
  l.take i ++ l.drop (i + 1)

/-- The registry-removal loop of `ClusterManager.prototype.exit`
(`src/index.js` lines 227–232):

```js
this.workers.map(pluck('id')).some(function (workerId, i) {
  if (workerId === worker.id) {
    self.workers.splice(i, 1);
  }
});
```

The `some` callback returns `undefined`, so the loop visits every index
of the *snapshot* of ids taken before any splice, while each splice
mutates the live array. -/
def exitRemove (workers : List Worker) (targetId : Nat) : List Worker :=
  (List.range workers.length).foldl
    (fun ws i => if (workers.map Worker.id)[i]? = some targetId then spliceAt ws i else ws)
    workers

/-- The fault synthesized on pool exhaustion
(`src/unnamed/part_000` line 260): `new Error('All workers have died.')`. -/
def poolFault : Fault := ⟨"All workers have died."⟩

/-- `ClusterManager.prototype.exit (worker, code, signal)` — the union the
tests pin down: the informational log and registry splice of
`src/index.js` lines 220–233 followed by the pool-exhaustion escalation
of `src/unnamed/part_000` lines 256–261.  `part_000` counts the live
worker table (`Object.keys(this.cluster.workers).length`), which Node
keeps in sync with the registry by deleting a worker before emitting its
`exit` event; the tests (`src/test/methods.js`, `src/unnamed/part_003`
and `part_004`, "should exit the master process if all workers exit")
assert the exactly-once escalation against the registry, which is the
count modelled here.  Returns the new registry and the emitted trace. -/
def exitHandler (cfg : Config) (workers : List Worker) (w : Worker)
    (code : Nat) (signal : String) : List Worker × List Action :=
  let infoMsg := "Worker exited: " ++ toString w.id ++
    " -- with status: " ++ toString code ++ " -- and signal: " ++ signal
  let ws := exitRemove workers w.id
  if ws.length = 0 then
    (ws, Action.logInfo infoMsg ::
      Action.logError "Cluster fatal: all worker have died. Master process exiting." ::
        exitMaster cfg (some poolFault))
  else
    (ws, [Action.logInfo infoMsg])

/-- Emit an `exit` signal for each worker of the queue in turn (the test
scenario: iterate over a snapshot of the pool while the registry is
mutated by the handler), threading the registry and accumulating the
trace. -/
def emitExits (cfg : Config) (code : Nat) (signal : String) :
    List Worker → List Worker → List Worker × List Action
  | [], ws => (ws, [])
  | w :: queue, ws =>
      let r := exitHandler cfg ws w code signal
      let rest := emitExits cfg code signal queue r.1
      (rest.1, r.2 ++ rest.2)

/-- The mutable state of a `ClusterManager` in the master role: the
worker-handle registry, the next id `cluster.fork()` will assign, the
multiset of listeners registered on `cluster` (one entry per
`cluster.on` call, duplicates meaning duplicate registrations), and the
trace of emitted actions. -/
structure MasterState where
  workers : List Worker
  nextId : Nat
  listeners : List String
  trace : List Action
deriving DecidableEq, Repr

/-- A freshly constructed manager: empty registry, worker ids start
at 1, nothing registered, nothing emitted. -/
def freshState : MasterState := ⟨[], 1, [], []⟩

/-- `ClusterManager.prototype.createWorker` (`src/index.js`
lines 175–190): fork a new worker (fresh sequential id), push it onto
the registry, log the informational "created" entry, and return the
handle.  (`part_000` lines 205–219 is the lineage without the registry
push; the tests — "should add the worker to the set of workers" — pin
the push.)  The per-worker domain's kill-on-error path is not modelled
here: no claim reaches it. -/
def createWorker (s : MasterState) : MasterState × Worker :=
  let w : Worker := ⟨s.nextId⟩
  ({ workers := s.workers ++ [w]
     nextId := s.nextId + 1
     listeners := s.listeners
     trace := s.trace ++ [Action.logInfo ("Created new worker: " ++ toString w.id)] }, w)

/-- The spawn loop of `_startMaster` (`src/index.js` lines 152–155):
`for (var i = 0; i < this.options.numWorkers; i++) this.createWorker();`. -/
def spawnWorkers : Nat → MasterState → MasterState
  | 0, s => s
  | n + 1, s => spawnWorkers n (createWorker s).1

/-- The five lifecycle signal classes bound in `_startMaster`
(`src/index.js` line 145). -/
def eventNames : List String := ["fork", "listening", "exit", "online", "disconnect"]

/-- `src/unnamed/part_000` lines 152–155: warn when the worker count was
neither configured nor supplied by the environment. -/
def warnIfDefaulted (givenNumWorkers : Bool) (s : MasterState) : MasterState :=
  if givenNumWorkers then s
  else { s with trace := s.trace ++
    [Action.logWarning "Number of workers not specified, using default."] }

/-- `src/index.js` lines 144–150: bind the five lifecycle events on
`cluster` (one fresh listener each per call). -/
def bindClusterEvents (s : MasterState) : MasterState :=
  { s with listeners := s.listeners ++ eventNames }

/-- `src/index.js` lines 157–161: run the master routine via
`masterDomain.run(function () { self.options.master(this); })` — inside
`domain.run`'s callback `this` is the domain object, so the routine's
argument is modelled as `MasterArg.masterDomain`; the registry size at
the moment of invocation is recorded alongside. -/
def runMasterRoutine (s : MasterState) : MasterState :=
  { s with trace := s.trace ++
    [Action.masterInvoked MasterArg.masterDomain s.workers.length] }

/-- `ClusterManager.prototype._startMaster` (`src/unnamed/part_000`
lines 149–181; `src/index.js` lines 134–161 is the same minus the
worker-count warning): optionally warn about a defaulted worker count,
install the master domain and bind the five lifecycle events, spawn
`numWorkers` workers, then run the master routine inside the domain. -/
def startMaster (numWorkers : Nat) (givenNumWorkers : Bool) (s : MasterState) : MasterState :=
  runMasterRoutine (spawnWorkers numWorkers (bindClusterEvents (warnIfDefaulted givenNumWorkers s)))

/-- `ClusterManager.prototype._startWorker` (`src/index.js`
lines 166–168): invoke the operator's worker routine. -/
def startWorker (s : MasterState) : MasterState :=
  { s with trace := s.trace ++ [Action.workerRoutineInvoked] }

/-- `ClusterManager.prototype.start` (`src/index.js` lines 107–114):
dispatch on the process role. -/
def start (isMaster : Bool) (numWorkers : Nat) (givenNumWorkers : Bool)
    (s : MasterState) : MasterState :=
  if isMaster then startMaster numWorkers givenNumWorkers s else startWorker s

/-! ## Helper lemmas -/

/-- Folding the splice step over indices none of which hold the target id
leaves the accumulator unchanged. -/
theorem foldl_splice_of_no_match (ids : List Nat) (t : Nat) (l : List Nat)
    (init : List Worker) (h : ∀ i ∈ l, ids[i]? ≠ some t) :
    l.foldl (fun ws i => if ids[i]? = some t then spliceAt ws i else ws) init = init := by
  induction l generalizing init with
  | nil => rfl
  | cons a l ih =>
    simp only [List.foldl_cons]
    rw [if_neg (h a (List.mem_cons_self a l))]
    exact ih init (fun i hi => h i (List.mem_cons_of_mem a hi))

/-- An exit signal whose worker id is absent from the registry leaves the
removal loop's registry untouched. -/
theorem exitRemove_not_mem (ws : List Worker) (t : Nat)
    (h : t ∉ ws.map Worker.id) : exitRemove ws t = ws := by
  unfold exitRemove
  apply foldl_splice_of_no_match
  intro i _ hc
  exact h (List.getElem?_mem hc)

/-- The removal loop removes exactly the element carrying the target id
when that id occurs nowhere else in the registry. -/
theorem exitRemove_append_cons (l₁ l₂ : List Worker) (w : Worker)
    (h₁ : w.id ∉ l₁.map Worker.id) (h₂ : w.id ∉ l₂.map Worker.id) :
    exitRemove (l₁ ++ w :: l₂) w.id = l₁ ++ l₂ := by
  unfold exitRemove
  have hids : (l₁ ++ w :: l₂).map Worker.id
      = l₁.map Worker.id ++ w.id :: l₂.map Worker.id := by simp
  have hlen : (l₁ ++ w :: l₂).length = l₁.length + (l₂.length + 1) := by simp
  rw [hids, hlen, List.range_add, List.foldl_append]
  have hfirst : (List.range l₁.length).foldl
      (fun ws i => if (l₁.map Worker.id ++ w.id :: l₂.map Worker.id)[i]? = some w.id
        then spliceAt ws i else ws) (l₁ ++ w :: l₂) = l₁ ++ w :: l₂ := by
    apply foldl_splice_of_no_match
    intro i hi hc
    have hix : i < (l₁.map Worker.id).length := by
      simpa using List.mem_range.mp hi
    rw [List.getElem?_append_left hix] at hc
    exact h₁ (List.getElem?_mem hc)
  rw [hfirst, List.range_succ_eq_map, List.map_cons, List.foldl_cons]
  have hat : (l₁.map Worker.id ++ w.id :: l₂.map Worker.id)[l₁.length + 0]? = some w.id := by
    rw [Nat.add_zero,
      List.getElem?_append_right (by simp : (l₁.map Worker.id).length ≤ l₁.length)]
    simp
  rw [if_pos hat]
  have hsplice : spliceAt (l₁ ++ w :: l₂) (l₁.length + 0) = l₁ ++ l₂ := by
    unfold spliceAt
    rw [Nat.add_zero]
    have htake : (l₁ ++ w :: l₂).take l₁.length = l₁ := List.take_left l₁ (w :: l₂)
    have hdrop : (l₁ ++ w :: l₂).drop (l₁.length + 1) = l₂ := by
      have hsplit : l₁ ++ w :: l₂ = (l₁ ++ [w]) ++ l₂ := by simp
      have hl : (l₁ ++ [w]).length = l₁.length + 1 := by simp
      rw [hsplit, ← hl]
      exact List.drop_left (l₁ ++ [w]) l₂
    rw [htake, hdrop]
  rw [hsplice, List.map_map]
  apply foldl_splice_of_no_match
  intro i hi hc
  obtain ⟨k, -, rfl⟩ := List.mem_map.mp hi
  simp only [Function.comp_apply] at hc
  have hge : (l₁.map Worker.id).length ≤ l₁.length + Nat.succ k := by
    rw [List.length_map]
    exact Nat.le_add_right _ _
  rw [List.getElem?_append_right hge] at hc
  have hidx : l₁.length + Nat.succ k - (l₁.map Worker.id).length = k + 1 := by
    rw [List.length_map]
    omega
  rw [hidx, List.getElem?_cons_succ] at hc
  exact h₂ (List.getElem?_mem hc)

/-- Splitting a no-duplicate-ids registry around one handle: that
handle's id occurs in neither part. -/
theorem nodup_parts {l₁ l₂ : List Worker} {w : Worker}
    (h : ((l₁ ++ w :: l₂).map Worker.id).Nodup) :
    w.id ∉ l₁.map Worker.id ∧ w.id ∉ l₂.map Worker.id := by
  rw [List.map_append, List.map_cons, List.nodup_append] at h
  obtain ⟨-, h₂, hdisj⟩ := h
  refine ⟨fun hmem => ?_, (List.nodup_cons.mp h₂).1⟩
  exact hdisj hmem (List.mem_cons_self _ _)

/-- A well-behaved hook's own work contains no `_exitMaster` markers. -/
theorem wellBehaved_filter_exitCalls {h : Hook} (hw : WellBehavedHook h) :
    h.work.filter Action.isExitMasterCall = [] := by
  rw [List.filter_eq_nil_iff]
  intro a ha
  have := List.all_eq_true.mp hw a ha
  cases a <;> simp_all [Action.isControl, Action.isExitMasterCall]

/-- A well-behaved hook's own work contains no hook-invocation markers. -/
theorem wellBehaved_filter_hookCalls {h : Hook} (hw : WellBehavedHook h) :
    h.work.filter Action.isHookCall = [] := by
  rw [List.filter_eq_nil_iff]
  intro a ha
  have := List.all_eq_true.mp hw a ha
  cases a <;> simp_all [Action.isControl, Action.isHookCall]

/-- A well-behaved hook's own work contains no `process.exit` markers. -/
theorem wellBehaved_filter_processExit {h : Hook} (hw : WellBehavedHook h) :
    h.work.filter Action.isProcessExit = [] := by
  rw [List.filter_eq_nil_iff]
  intro a ha
  have := List.all_eq_true.mp hw a ha
  cases a <;> simp_all [Action.isControl, Action.isProcessExit]

/-- Mapping worker construction over a shifted index range, cons form. -/
theorem map_mk_range_succ (m n : Nat) :
    (List.range (n + 1)).map (fun i => (⟨m + i⟩ : Worker))
      = ⟨m⟩ :: (List.range n).map (fun i => (⟨m + 1 + i⟩ : Worker)) := by
  rw [List.range_succ_eq_map, List.map_cons, List.map_map]
  refine congrArg₂ List.cons (by simp) ?_
  apply List.map_congr_left
  intro i _
  simp only [Function.comp_apply]
  congr 1
  omega

/-- Effect of the spawn loop: it appends `n` fresh sequentially-numbered
handles, advances the fork counter, leaves the listener table alone and
adds only informational log entries to the trace. -/
theorem spawnWorkers_spec (n : Nat) (s : MasterState) :
    (spawnWorkers n s).workers
        = s.workers ++ (List.range n).map (fun i => ⟨s.nextId + i⟩) ∧
    (spawnWorkers n s).nextId = s.nextId + n ∧
    (spawnWorkers n s).listeners = s.listeners ∧
    (spawnWorkers n s).trace.filter Action.isMasterCall
        = s.trace.filter Action.isMasterCall := by
  induction n generalizing s with
  | zero => simp [spawnWorkers]
  | succ n ih =>
    obtain ⟨hw, hn, hl, ht⟩ := ih (createWorker s).1
    have hstep : spawnWorkers (n + 1) s = spawnWorkers n (createWorker s).1 := rfl
    refine ⟨?_, ?_, ?_, ?_⟩
    · rw [hstep, hw, map_mk_range_succ]
      simp [createWorker]
    · rw [hstep, hn]
      simp only [createWorker]
      omega
    · rw [hstep, hl]
      rfl
    · rw [hstep, ht]
      simp [createWorker, Action.isMasterCall]

/-- Effect of one `_startMaster` call on an arbitrary prior state: the
registry grows by `N` fresh handles, the five lifecycle listeners are
appended (again), and exactly one master-routine invocation is added to
the trace, carrying the domain argument and the post-spawn registry
size. -/
theorem startMaster_state (N : Nat) (g : Bool) (s : MasterState) :
    (startMaster N g s).workers
        = s.workers ++ (List.range N).map (fun i => ⟨s.nextId + i⟩) ∧
    (startMaster N g s).listeners = s.listeners ++ eventNames ∧
    (startMaster N g s).trace.filter Action.isMasterCall
        = s.trace.filter Action.isMasterCall
          ++ [Action.masterInvoked MasterArg.masterDomain (s.workers.length + N)] := by
  have hwarn : (warnIfDefaulted g s).workers = s.workers
      ∧ (warnIfDefaulted g s).nextId = s.nextId
      ∧ (warnIfDefaulted g s).listeners = s.listeners
      ∧ (warnIfDefaulted g s).trace.filter Action.isMasterCall
          = s.trace.filter Action.isMasterCall := by
    cases g <;> simp [warnIfDefaulted, Action.isMasterCall]
  obtain ⟨hw1, hn1, hl1, ht1⟩ := hwarn
  obtain ⟨hw, -, hl, ht⟩ := spawnWorkers_spec N (bindClusterEvents (warnIfDefaulted g s))
  have hbw : (bindClusterEvents (warnIfDefaulted g s)).workers = s.workers := by
    simpa [bindClusterEvents] using hw1
  have hbn : (bindClusterEvents (warnIfDefaulted g s)).nextId = s.nextId := by
    simpa [bindClusterEvents] using hn1
  have hbl : (bindClusterEvents (warnIfDefaulted g s)).listeners
      = s.listeners ++ eventNames := by
    simp [bindClusterEvents, hl1]
  have hbt : (bindClusterEvents (warnIfDefaulted g s)).trace.filter Action.isMasterCall
      = s.trace.filter Action.isMasterCall := by
    simpa [bindClusterEvents] using ht1
  rw [hbw, hbn] at hw
  have hlen : (spawnWorkers N (bindClusterEvents (warnIfDefaulted g s))).workers.length
      = s.workers.length + N := by
    rw [hw]
    simp
  refine ⟨?_, ?_, ?_⟩
  · simp only [startMaster, runMasterRoutine]
    exact hw
  · simp only [startMaster, runMasterRoutine]
    rw [hl, hbl]
  · simp only [startMaster, runMasterRoutine, List.filter_append]
    rw [ht, hbt, hlen]
    simp [Action.isMasterCall]

/-- Master startup from a fresh manager populates the registry with
handles `1, …, N` in creation order. -/
theorem startMaster_fresh_workers (N : Nat) (g : Bool) :
    (startMaster N g freshState).workers
      = (List.range N).map (fun i => ⟨i + 1⟩) := by
  obtain ⟨hw, -, -⟩ := startMaster_state N g freshState
  rw [hw]
  simp only [freshState, List.nil_append]
  apply List.map_congr_left
  intro i _
  congr 1
  omega

/-- One step of the exit-signal loop, as a rewrite equation. -/
theorem emitExits_cons (cfg : Config) (code : Nat) (signal : String)
    (w : Worker) (queue ws : List Worker) :
    emitExits cfg code signal (w :: queue) ws
      = ((emitExits cfg code signal queue (exitHandler cfg ws w code signal).1).1,
         (exitHandler cfg ws w code signal).2
           ++ (emitExits cfg code signal queue (exitHandler cfg ws w code signal).1).2) := rfl

/-- The empty exit-signal loop, as a rewrite equation. -/
theorem emitExits_nil (cfg : Config) (code : Nat) (signal : String) (ws : List Worker) :
    emitExits cfg code signal [] ws = (ws, []) := rfl

/-- Driving every handle of a duplicate-free, nonempty registry through
the exit handler empties the registry and produces exactly one
`_exitMaster` invocation, carrying the pool-exhaustion fault. -/
theorem emitExits_exhaustion (cfg : Config) (code : Nat) (signal : String)
    (hwb : WellBehavedHook cfg.beforeExit) :
    ∀ ws : List Worker, ws ≠ [] → (ws.map Worker.id).Nodup →
      (emitExits cfg code signal ws ws).1 = [] ∧
      ((emitExits cfg code signal ws ws).2.filter Action.isExitMasterCall)
        = [Action.exitMasterInvoked (some poolFault)] := by
  intro ws
  induction ws with
  | nil => intro h; exact absurd rfl h
  | cons w rest ih =>
    intro _ hnd
    have hnotin : w.id ∉ rest.map Worker.id := by
      rw [List.map_cons, List.nodup_cons] at hnd
      exact hnd.1
    have hrm : exitRemove (w :: rest) w.id = rest := by
      have := exitRemove_append_cons [] rest w (by simp) hnotin
      simpa using this
    cases rest with
    | nil =>
      have hstep : exitHandler cfg [w] w code signal
          = ([], Action.logInfo ("Worker exited: " ++ toString w.id ++
              " -- with status: " ++ toString code ++ " -- and signal: " ++ signal) ::
            Action.logError "Cluster fatal: all worker have died. Master process exiting." ::
              exitMaster cfg (some poolFault)) := by
        simp only [exitHandler]
        rw [hrm]
        rfl
      rw [emitExits_cons, hstep]
      refine ⟨rfl, ?_⟩
      rw [emitExits_nil]
      simp only [List.append_nil, List.filter_cons, List.filter_append]
      simp [exitMaster, Action.isExitMasterCall, wellBehaved_filter_exitCalls hwb]
    | cons w2 rest2 =>
      have hstep : exitHandler cfg (w :: w2 :: rest2) w code signal
          = (w2 :: rest2, [Action.logInfo ("Worker exited: " ++ toString w.id ++
              " -- with status: " ++ toString code ++ " -- and signal: " ++ signal)]) := by
        simp only [exitHandler]
        rw [hrm]
        simp
      have hndrest : ((w2 :: rest2).map Worker.id).Nodup := by
        rw [List.map_cons, List.nodup_cons] at hnd
        exact hnd.2
      obtain ⟨ih1, ih2⟩ := ih (by simp) hndrest
      rw [emitExits_cons, hstep]
      refine ⟨ih1, ?_⟩
      rw [List.filter_append, ih2]
      simp [Action.isExitMasterCall]

/-! ## Claim theorems -/

/-- C1: For every freshly-started pool of size N ≥ 1 and every
configuration (in particular both values of the kill-on-error flag),
emitting an exit signal for every handle in the pool drives the registry
to empty and triggers exactly one `_exitMaster` invocation, carrying the
pool-exhaustion fault `All workers have died.`. -/
theorem pool_exhaustion_escalates (cfg : Config) (N code : Nat) (signal : String)
    (hN : 1 ≤ N) (hwb : WellBehavedHook cfg.beforeExit) :
    (emitExits cfg code signal (startMaster N true freshState).workers
        (startMaster N true freshState).workers).1 = [] ∧
    ((emitExits cfg code signal (startMaster N true freshState).workers
        (startMaster N true freshState).workers).2.filter Action.isExitMasterCall)
      = [Action.exitMasterInvoked (some poolFault)] := by
  have hw := startMaster_fresh_workers N true
  have hne : (startMaster N true freshState).workers ≠ [] := by
    rw [hw]
    intro hc
    have hlen := congrArg List.length hc
    simp at hlen
    omega
  have hnd : ((startMaster N true freshState).workers.map Worker.id).Nodup := by
    rw [hw, List.map_map]
    have hcomp : (Worker.id ∘ fun i => (⟨i + 1⟩ : Worker)) = fun i => i + 1 := rfl
    rw [hcomp]
    exact (List.nodup_range N).map (fun a b h => by omega)
  exact emitExits_exhaustion cfg code signal hwb _ hne hnd

/-- C1 witness: pool of size 4, kill-on-error disabled, default hook. -/
theorem pool_exhaustion_escalates_witness :
    1 ≤ 4 ∧ WellBehavedHook defaultBeforeExit ∧
    ((emitExits ⟨false, defaultBeforeExit⟩ 1 "SIGINT"
        (startMaster 4 true freshState).workers
        (startMaster 4 true freshState).workers).1 = [] ∧
     ((emitExits ⟨false, defaultBeforeExit⟩ 1 "SIGINT"
        (startMaster 4 true freshState).workers
        (startMaster 4 true freshState).workers).2.filter Action.isExitMasterCall)
       = [Action.exitMasterInvoked (some poolFault)]) :=
  ⟨by decide, by decide,
    pool_exhaustion_escalates ⟨false, defaultBeforeExit⟩ 4 1 "SIGINT" (by decide) (by decide)⟩

/-- C2 (evaluation at the failing input): `_startMaster` with
`numWorkers = 3` invokes the operator's master routine exactly once,
inside the master fault boundary and with the registry already at 3 —
but the argument it passes is the master domain object (the `this` of
`domain.run`'s callback), which is not the supervisor instance that the
claim and the module's own JSDoc example (`masterStart(clusterManager)`)
require. -/
theorem master_routine_argument_is_domain :
    ((startMaster 3 true freshState).trace.filter Action.isMasterCall)
      = [Action.masterInvoked MasterArg.masterDomain 3] ∧
    MasterArg.masterDomain ≠ MasterArg.supervisor := by
  constructor
  · decide
  · decide

/-- C3: on a registry with pairwise-distinct identifiers, an exit signal
for a present worker removes exactly the handle carrying that worker's
identifier; all other handles remain, in their prior relative order. -/
theorem exit_removes_exactly_matching (cfg : Config) (l₁ l₂ : List Worker)
    (w : Worker) (code : Nat) (signal : String)
    (hnd : ((l₁ ++ w :: l₂).map Worker.id).Nodup) :
    (exitHandler cfg (l₁ ++ w :: l₂) w code signal).1 = l₁ ++ l₂ := by
  obtain ⟨h₁, h₂⟩ := nodup_parts hnd
  simp only [exitHandler]
  rw [exitRemove_append_cons l₁ l₂ w h₁ h₂]
  split <;> rfl

/-- C3 witness: registry `[1, 2, 3]`, exit of worker 2. -/
theorem exit_removes_exactly_matching_witness :
    ((([(⟨1⟩ : Worker)] ++ (⟨2⟩ : Worker) :: [(⟨3⟩ : Worker)]).map Worker.id)).Nodup ∧
    (exitHandler ⟨true, defaultBeforeExit⟩ ([⟨1⟩] ++ ⟨2⟩ :: [⟨3⟩]) ⟨2⟩ 0 "SIGINT").1
      = [⟨1⟩] ++ [⟨3⟩] :=
  ⟨by decide,
    exit_removes_exactly_matching ⟨true, defaultBeforeExit⟩ [⟨1⟩] [⟨3⟩] ⟨2⟩ 0 "SIGINT"
      (by decide)⟩

/-- C4: `masterError` first logs the fault at error severity; when
kill-on-error is true it additionally logs the fatal message and invokes
`_exitMaster` exactly once with that fault; when false the trace is the
single error log — no shutdown is invoked. -/
theorem masterError_policy (cfg : Config) (err : Fault)
    (hwb : WellBehavedHook cfg.beforeExit) :
    (masterError cfg err).head?
        = some (Action.logError ("Unhandled master error: " ++ err.message)) ∧
    (cfg.killOnError = true →
      Action.logError "Cluster fatal: unhandled error in master process, exiting."
          ∈ masterError cfg err ∧
      (masterError cfg err).filter Action.isExitMasterCall
          = [Action.exitMasterInvoked (some err)]) ∧
    (cfg.killOnError = false →
      masterError cfg err
          = [Action.logError ("Unhandled master error: " ++ err.message)]) := by
  refine ⟨rfl, ?_, ?_⟩
  · intro hk
    constructor
    · simp [masterError, hk]
    · cases hdone : cfg.beforeExit.callsDone <;>
        simp [masterError, hk, exitMaster, hdone, List.filter_append,
          Action.isExitMasterCall, wellBehaved_filter_exitCalls hwb]
  · intro hk
    simp [masterError, hk]

/-- C4 witness: kill-on-error enabled, default hook, fault `boom`. -/
theorem masterError_policy_witness :
    (masterError ⟨true, defaultBeforeExit⟩ ⟨"boom"⟩).filter Action.isExitMasterCall
      = [Action.exitMasterInvoked (some ⟨"boom"⟩)] :=
  ((masterError_policy ⟨true, defaultBeforeExit⟩ ⟨"boom"⟩ (by decide)).2.1 rfl).2

/-- C5: `_exitMaster` invokes the configured pre-exit hook exactly once,
with exactly the supplied fault; when the hook signals completion the
very last action is `process.exit`, with status 1 when a fault was
supplied and 0 otherwise; when the hook never signals completion no
`process.exit` ever happens (termination waits on the hook). -/
theorem exitMaster_protocol (cfg : Config) (err : Option Fault)
    (hwb : WellBehavedHook cfg.beforeExit) :
    (exitMaster cfg err).filter Action.isHookCall = [Action.hookInvoked err] ∧
    (cfg.beforeExit.callsDone = true →
      (exitMaster cfg err).getLast?
          = some (Action.processExit (if err.isSome then 1 else 0)) ∧
      (exitMaster cfg err).filter Action.isProcessExit
          = [Action.processExit (if err.isSome then 1 else 0)]) ∧
    (cfg.beforeExit.callsDone = false →
      (exitMaster cfg err).filter Action.isProcessExit = []) := by
  refine ⟨?_, ?_, ?_⟩
  · cases hdone : cfg.beforeExit.callsDone <;>
      simp [exitMaster, hdone, List.filter_append, Action.isHookCall,
        wellBehaved_filter_hookCalls hwb]
  · intro hdone
    constructor
    · rw [show exitMaster cfg err
          = (Action.exitMasterInvoked err :: Action.hookInvoked err :: cfg.beforeExit.work)
            ++ [Action.processExit (if err.isSome then 1 else 0)] by
        simp [exitMaster, hdone]]
      exact List.getLast?_concat _
    · simp [exitMaster, hdone, List.filter_append, Action.isProcessExit,
        wellBehaved_filter_processExit hwb]
  · intro hdone
    simp [exitMaster, hdone, List.filter_append, Action.isProcessExit,
      wellBehaved_filter_processExit hwb]

/-- C5 witness: default hook, explicit fault — hook invoked once with
that fault and the final action is `process.exit(1)`. -/
theorem exitMaster_protocol_witness :
    (exitMaster ⟨true, defaultBeforeExit⟩ (some ⟨"err"⟩)).getLast?
      = some (Action.processExit 1) := by
  have h := (exitMaster_protocol ⟨true, defaultBeforeExit⟩ (some ⟨"err"⟩) (by decide)).2.1 rfl
  simpa using h.1

/-- C6 counterexample: a supplied-but-not-callable pre-exit hook is
replaced by `noop`, which differs from the default hook and never
signals completion, so a later `_exitMaster` never reaches
`process.exit` — whereas with the default hook it would. -/
theorem beforeExit_noncallable_cx :
    (resolveBeforeExit BeforeExitOpt.nonFunction).1 ≠ defaultBeforeExit ∧
    (exitMaster ⟨true, (resolveBeforeExit BeforeExitOpt.nonFunction).1⟩ none).filter
        Action.isProcessExit = [] ∧
    (exitMaster ⟨true, defaultBeforeExit⟩ none).filter Action.isProcessExit
        = [Action.processExit 0] := by
  decide

/-- C6 amended: a supplied-but-not-callable pre-exit hook is discarded
with a warning and replaced by the bare no-op, which never invokes its
completion callback; a later `_exitMaster` still invokes the replacement
exactly once, but the process-termination step never runs. -/
theorem beforeExit_noncallable_amended (k : Bool) (err : Option Fault) :
    resolveBeforeExit BeforeExitOpt.nonFunction
        = (noopHook,
           [Action.logWarning "Before exit callback is not a function, removing."]) ∧
    (exitMaster ⟨k, noopHook⟩ err).filter Action.isHookCall = [Action.hookInvoked err] ∧
    (exitMaster ⟨k, noopHook⟩ err).filter Action.isProcessExit = [] := by
  refine ⟨rfl, ?_, ?_⟩ <;>
    simp [exitMaster, noopHook, Action.isHookCall, Action.isProcessExit]

/-- C7: every `createWorker` call appends the newly forked handle (the
one carrying the next fresh id) to the registry, logs the informational
"created" entry, and returns that same handle. -/
theorem createWorker_appends_logs_returns (s : MasterState) :
    (createWorker s).1.workers = s.workers ++ [(createWorker s).2] ∧
    (createWorker s).2 = ⟨s.nextId⟩ ∧
    (createWorker s).1.trace = s.trace
        ++ [Action.logInfo ("Created new worker: " ++ toString (createWorker s).2.id)] ∧
    (createWorker s).1.nextId = s.nextId + 1 :=
  ⟨rfl, rfl, rfl, rfl⟩

/-- C8: for every configured `numWorkers = N ≥ 0`, master startup from a
fresh manager spawns exactly the handles `1, …, N`, and the single
master-routine invocation happens with the registry already holding
exactly `N` handles. -/
theorem startMaster_spawns_pool (N : Nat) (g : Bool) :
    (startMaster N g freshState).workers = (List.range N).map (fun i => ⟨i + 1⟩) ∧
    (startMaster N g freshState).workers.length = N ∧
    (startMaster N g freshState).trace.filter Action.isMasterCall
        = [Action.masterInvoked MasterArg.masterDomain N] := by
  have hw := startMaster_fresh_workers N g
  obtain ⟨-, -, ht⟩ := startMaster_state N g freshState
  refine ⟨hw, ?_, ?_⟩
  · rw [hw]
    simp
  · rw [ht]
    simp [freshState]

/-- C9 counterexample: with `numWorkers = 2`, a second `start()` in the
master role grows the registry to 4 handles and registers the `exit`
lifecycle listener a second time. -/
theorem start_idempotence_cx :
    (start true 2 true (start true 2 true freshState)).workers.length = 4 ∧
    (start true 2 true freshState).workers.length = 2 ∧
    (start true 2 true (start true 2 true freshState)).listeners.count "exit" = 2 ∧
    (start true 2 true freshState).listeners.count "exit" = 1 := by
  decide

/-- C9 amended: `start()` is not idempotent — every invocation in the
master role spawns a further `numWorkers` workers (a second call doubles
the pool) and registers each of the five lifecycle signal handlers
again (so a single underlying event would be handled twice). -/
theorem start_not_idempotent (N : Nat) (g : Bool) :
    (start true N g (start true N g freshState)).workers.length = 2 * N ∧
    (start true N g freshState).workers.length = N ∧
    (start true N g (start true N g freshState)).listeners.count "exit" = 2 ∧
    (start true N g freshState).listeners.count "exit" = 1 := by
  obtain ⟨hw1, hl1, -⟩ := startMaster_state N g freshState
  obtain ⟨hw2, hl2, -⟩ := startMaster_state N g (startMaster N g freshState)
  refine ⟨?_, ?_, ?_, ?_⟩
  · show (startMaster N g (startMaster N g freshState)).workers.length = 2 * N
    rw [hw2, List.length_append, hw1, List.length_append]
    simp only [freshState, List.length_nil, List.length_map, List.length_range]
    omega
  · show (startMaster N g freshState).workers.length = N
    rw [hw1]
    simp [freshState]
  · show (startMaster N g (startMaster N g freshState)).listeners.count "exit" = 2
    rw [hl2, hl1]
    decide
  · show (startMaster N g freshState).listeners.count "exit" = 1
    rw [hl1]
    decide

/-- C10: an exit signal for a worker whose identifier does not occur in
the registry leaves the registry exactly unchanged — nothing removed,
nothing reordered (and the handler returns normally). -/
theorem exit_unknown_worker_frame (cfg : Config) (ws : List Worker) (w : Worker)
    (code : Nat) (signal : String) (h : w.id ∉ ws.map Worker.id) :
    (exitHandler cfg ws w code signal).1 = ws := by
  simp only [exitHandler]
  rw [exitRemove_not_mem ws w.id h]
  split <;> rfl

/-- C10 witness: registry `[1, 2]`, exit signal for unknown worker 5. -/
theorem exit_unknown_worker_frame_witness :
    (Worker.id ⟨5⟩ ∉ [⟨1⟩, ⟨2⟩].map Worker.id) ∧
    (exitHandler ⟨true, defaultBeforeExit⟩ [⟨1⟩, ⟨2⟩] ⟨5⟩ 0 "SIGTERM").1 = [⟨1⟩, ⟨2⟩] :=
  ⟨by decide,
    exit_unknown_worker_frame ⟨true, defaultBeforeExit⟩ [⟨1⟩, ⟨2⟩] ⟨5⟩ 0 "SIGTERM" (by decide)⟩

end ClusterMan
